import Mathlib

/- Verification development for the atlasMedia stream supervisor.
   The JavaScript sources are shallowly embedded as executable Lean
   definitions: strings become `String` / `List Char`, JS numbers in the
   metrics parser become exact rationals, fallible code returns `Except`
   or `Option`, and the asynchronous manager routines become pure state
   transition functions whose database reads are explicit parameters. -/

/-! ## Generic string helpers (JS string primitives on character lists) -/

/-- ASCII lower-casing of one character (model of `String.prototype.toLowerCase`
restricted to ASCII, which covers every string the embedded code handles). -/
def lcChar (c : Char) : Char :=
  if 'A' ≤ c ∧ c ≤ 'Z' then Char.ofNat (c.toNat + 32) else c

/-- Lower-case a character list. -/
def lowerL (l : List Char) : List Char := l.map lcChar

/-- Lower-case a string. -/
def lowerStr (s : String) : String := String.mk (lowerL s.toList)

/-- If `key` is a prefix of `l`, return the remainder, else `none`. -/
def stripPfx : List Char → List Char → Option (List Char)
  | [], l => some l
  | _ :: _, [] => none
  | a :: as, b :: bs => if a = b then stripPfx as bs else none

/-- Case-insensitive variant of `stripPfx` (for JS regexes with the `i` flag). -/
def stripPfxCI : List Char → List Char → Option (List Char)
  | [], l => some l
  | _ :: _, [] => none
  | a :: as, b :: bs => if lcChar a = lcChar b then stripPfxCI as bs else none

/-- Whether `pat` occurs as a contiguous run anywhere in `l`
(model of `String.prototype.includes`). -/
def containsL (pat : List Char) : List Char → Bool
  | [] => (stripPfx pat []).isSome
  | l@(_ :: rest) => (stripPfx pat l).isSome || containsL pat rest

/-- JS `a.includes(b)` on strings. -/
def strIncludes (s pat : String) : Bool := containsL pat.toList s.toList

/-- JS `a.startsWith(b)` on strings. -/
def strStarts (s pat : String) : Bool := (stripPfx pat.toList s.toList).isSome

/-- Numeric value of a digit list, e.g. `['1','2','3'] ↦ 123`. -/
def natOfDigits (l : List Char) : Nat :=
  l.foldl (fun n c => 10 * n + (c.toNat - 48)) 0

/-- JS whitespace class `\s`, restricted to its ASCII members. -/
def jsWS (c : Char) : Bool :=
  c = ' ' || c = '\t' || c = '\n' || c = '\x0d' || c = '\x0b' || c = '\x0c'

/-- Characters matched by the regex class `[\d.]`. -/
def digitDot (c : Char) : Bool := c.isDigit || c = '.'

/-- Decimal decomposition of a token drawn from the regex class `[\d.]+`:
integer part, fractional digits value, fractional digit count; anything
after a second dot is ignored, as JS `parseFloat` does.  A token with no
leading digits and no fractional digits (all dots) is NaN in JS; the model
collapses NaN to `none` (see the parser notes below). -/
def decParts (l : List Char) : Option (Nat × Nat × Nat) :=
  let ip := l.takeWhile Char.isDigit
  let rest := l.dropWhile Char.isDigit
  match ip, rest with
  | [], '.' :: fr =>
      let fd := fr.takeWhile Char.isDigit
      if fd.isEmpty then none
      else some (0, natOfDigits fd, fd.length)
  | [], _ => none
  | ds, '.' :: fr =>
      let fd := fr.takeWhile Char.isDigit
      some (natOfDigits ds, natOfDigits fd, fd.length)
  | ds, _ => some (natOfDigits ds, 0, 0)

/-- Rational value of a decimal decomposition. -/
def qOfParts : Nat × Nat × Nat → ℚ :=
  fun (i, f, k) => (i : ℚ) + (f : ℚ) / (10 : ℚ) ^ k

/-- JS `parseFloat` on a token drawn from the class `[\d.]+`. -/
def parseDecQ (l : List Char) : Option ℚ :=
  (decParts l).map qOfParts

/-- Leftmost-match scan: try the position matcher `m` at every suffix of the
subject, left to right, as a JS regex engine does. -/
def scanFirst {α : Type} (m : List Char → Option α) : List Char → Option α
  | [] => m []
  | l@(_ :: rest) =>
    match m l with
    | some v => some v
    | none => scanFirst m rest

/-! ## FFmpegStatsParser (src/utils/FFmpegStatsParser.js)

The parser extracts numeric fields from one stderr line with a fixed set of
regexes.  JS numbers are modelled as exact rationals; the derived
presentation strings (`sizeFormatted`, `timeFormatted`, `bitrateFormatted`,
`videoBitrateFormatted`, `audioBitrateFormatted`) and the wall-clock
`timestamp` field are not modelled (the timestamp is always present, which is
why a line containing `frame=` always yields a record). -/

/-- Position matcher for `key\s*(\d+)` (used for `frame=`). -/
def matchKeyNat (key : List Char) (l : List Char) : Option Nat :=
  (stripPfx key l).bind fun r =>
    let r2 := r.dropWhile jsWS
    let ds := r2.takeWhile Char.isDigit
    if ds.isEmpty then none else some (natOfDigits ds)

/-- Position matcher for `key\s*([\d.]+)` or, with `ws := false`,
`key([\d.]+)` (used for `fps=`, `q=`); returns the raw captured token. -/
def matchKeyTok (key : List Char) (ws : Bool) (l : List Char) : Option (List Char) :=
  (stripPfx key l).bind fun r =>
    let r2 := if ws then r.dropWhile jsWS else r
    let tok := r2.takeWhile digitDot
    if tok.isEmpty then none else some tok

/-- Position matcher for `speed=\s*([\d.]+)x`; raw captured token. -/
def matchSpeedTok (l : List Char) : Option (List Char) :=
  (stripPfx "speed=".toList l).bind fun r =>
    let r2 := r.dropWhile jsWS
    let tok := r2.takeWhile digitDot
    let rest := r2.dropWhile digitDot
    if tok.isEmpty then none
    else match rest with
      | 'x' :: _ => some tok
      | _ => none

/-- Position matcher for `(?:L?size)=\s*(\d+)([kmg]?b)` with the `i` flag,
returning the size in bytes (kB·1024, MB·1024², GB·1024³). -/
def matchSize (l : List Char) : Option Nat :=
  let afterL : List Char :=
    match l with
    | c :: r => if lcChar c = 'l' then r else l
    | [] => l
  (stripPfxCI "size=".toList afterL).bind fun r =>
    let r2 := r.dropWhile jsWS
    let ds := r2.takeWhile Char.isDigit
    let rest := r2.dropWhile Char.isDigit
    if ds.isEmpty then none
    else
      let n := natOfDigits ds
      match rest with
      | c :: r3 =>
        if lcChar c = 'b' then some n
        else if lcChar c = 'k' then
          match r3 with
          | c2 :: _ => if lcChar c2 = 'b' then some (n * 1024) else none
          | [] => none
        else if lcChar c = 'm' then
          match r3 with
          | c2 :: _ => if lcChar c2 = 'b' then some (n * 1024 * 1024) else none
          | [] => none
        else if lcChar c = 'g' then
          match r3 with
          | c2 :: _ => if lcChar c2 = 'b' then some (n * 1024 * 1024 * 1024) else none
          | [] => none
        else none
      | [] => none

/-- Exactly two digits at the head of the list, with the remainder. -/
def twoDigits : List Char → Option (Nat × List Char)
  | a :: b :: r =>
    if a.isDigit && b.isDigit then some (natOfDigits [a, b], r) else none
  | _ => none

/-- Position matcher for `time=(\d{2}):(\d{2}):(\d{2})\.(\d{2})`, returning
the four raw capture groups (hours, minutes, seconds, centiseconds). -/
def matchTimeRaw (l : List Char) : Option (Nat × Nat × Nat × Nat) :=
  (stripPfx "time=".toList l).bind fun r =>
    (twoDigits r).bind fun (h, r1) =>
    match r1 with
    | ':' :: r2 =>
      (twoDigits r2).bind fun (m, r3) =>
      match r3 with
      | ':' :: r4 =>
        (twoDigits r4).bind fun (s, r5) =>
        match r5 with
        | '.' :: r6 =>
          (twoDigits r6).bind fun (cs, _) =>
          some (h, m, s, cs)
        | _ => none
      | _ => none
    | _ => none

/-- The ordered unit alternation `(kbits\/s|mbits\/s|bits\/s|kb\/s|mb\/s)`
of the first bitrate regex, matched case-insensitively; returns the
lower-cased unit text. -/
def matchBitrateUnitAlt (l : List Char) : Option String :=
  if (stripPfxCI "kbits/s".toList l).isSome then some "kbits/s"
  else if (stripPfxCI "mbits/s".toList l).isSome then some "mbits/s"
  else if (stripPfxCI "bits/s".toList l).isSome then some "bits/s"
  else if (stripPfxCI "kb/s".toList l).isSome then some "kb/s"
  else if (stripPfxCI "mb/s".toList l).isSome then some "mb/s"
  else none

/-- Unit conversion applied to the first-format bitrate value, transcribed
from the source conditionals:
`if (unit.includes('mbits') || unit.includes('mb/')) bitrate *= 1000;
else if (unit.includes('bits/') || (unit.includes('bits') && !unit.includes('k'))) bitrate /= 1000;`
Note that the unit `kbits/s` contains the substring `bits/`, so it lands in
the division branch. -/
def bitrateUnitConvert (unit : String) (q : ℚ) : ℚ :=
  if strIncludes unit "mbits" || strIncludes unit "mb/" then q * 1000
  else if strIncludes unit "bits/" || (strIncludes unit "bits" && !(strIncludes unit "k")) then
    q / 1000
  else q

/-- Position matcher for format 1:
`bitrate=\s*([\d.]+)\s*(kbits\/s|mbits\/s|bits\/s|kb\/s|mb\/s)` with `i`;
returns the raw value token and the lower-cased unit. -/
def matchBitrateUnitTok (l : List Char) : Option (List Char × String) :=
  (stripPfxCI "bitrate=".toList l).bind fun r =>
    let r2 := r.dropWhile jsWS
    let tok := r2.takeWhile digitDot
    let rest := (r2.dropWhile digitDot).dropWhile jsWS
    if tok.isEmpty then none
    else
      (matchBitrateUnitAlt rest).map fun unit => (tok, unit)

/-- Position matcher for format 2: `bitrate=\s*([\d.]+)\s*([km]?)` with `i`;
returns the raw value token and whether the optional unit is `m`
(the only unit that rescales). -/
def matchBitrateBareTok (l : List Char) : Option (List Char × Bool) :=
  (stripPfxCI "bitrate=".toList l).bind fun r =>
    let r2 := r.dropWhile jsWS
    let tok := r2.takeWhile digitDot
    let rest := (r2.dropWhile digitDot).dropWhile jsWS
    if tok.isEmpty then none
    else
      some (tok, match rest with
                 | c :: _ => lcChar c = 'm'
                 | [] => false)

/-- Position matcher for `video:\s*(\d+)([km]?)` / `audio:\s*(\d+)([km]?)`
with `i`; only `m` rescales. -/
def matchAVBitrate (key : List Char) (l : List Char) : Option Nat :=
  (stripPfxCI key l).bind fun r =>
    let r2 := r.dropWhile jsWS
    let ds := r2.takeWhile Char.isDigit
    let rest := r2.dropWhile Char.isDigit
    if ds.isEmpty then none
    else
      let n := natOfDigits ds
      match rest with
      | c :: _ => if lcChar c = 'm' then some (n * 1000) else some n
      | [] => some n

/-- Parsed statistics record (`stats` in `parseStatsLine`).  Fields that the
line does not yield are `none`; a JS NaN stored in a field is also modelled
as `none` (NaN is falsy, so the one downstream truthiness test on
`stats.bitrate` behaves identically). -/
structure FFStats where
  frame : Option Nat := none
  fps : Option ℚ := none
  quality : Option ℚ := none
  size : Option Nat := none
  time : Option ℚ := none
  bitrate : Option ℚ := none
  speed : Option ℚ := none
  videoBitrate : Option Nat := none
  audioBitrate : Option Nat := none
deriving DecidableEq, Repr

/-- JS truthiness of an optional number (absent, 0 and NaN are falsy). -/
def qTruthy : Option ℚ → Bool
  | none => false
  | some q => q ≠ 0

/-- `FFmpegStatsParser.parseStatsLine` over a character list: lines without
`frame=` yield nothing; otherwise each regex contributes its field, and when
the bitrate is falsy but size and positive time are present it is recomputed
as `size·8 / (time·1000)` kbits/s.  The record is always returned in the
`frame=` branch because the source unconditionally adds a timestamp key
before the emptiness check. -/
def parseStatsL (l : List Char) : Option FFStats :=
  if containsL "frame=".toList l = false then none
  else
    let sz := scanFirst matchSize l
    let tm := (scanFirst matchTimeRaw l).map fun (h, m, s, cs) =>
      (h : ℚ) * 3600 + (m : ℚ) * 60 + (s : ℚ) + (cs : ℚ) / 100
    let br0 : Option ℚ :=
      match scanFirst matchBitrateUnitTok l with
      | some (tok, unit) => (parseDecQ tok).map (bitrateUnitConvert unit)
      | none =>
        match scanFirst matchBitrateBareTok l with
        | some (tok, isM) => (parseDecQ tok).map fun q => if isM then q * 1000 else q
        | none => none
    let br :=
      if qTruthy br0 = false then
        match sz, tm with
        | some s, some t => if s ≠ 0 ∧ 0 < t then some ((s : ℚ) * 8 / (t * 1000)) else br0
        | _, _ => br0
      else br0
    some
      { frame := scanFirst (matchKeyNat "frame=".toList) l
        fps := (scanFirst (matchKeyTok "fps=".toList true) l).bind parseDecQ
        quality := (scanFirst (matchKeyTok "q=".toList false) l).bind parseDecQ
        size := sz
        time := tm
        bitrate := br
        speed := (scanFirst matchSpeedTok l).bind parseDecQ
        videoBitrate := scanFirst (matchAVBitrate "video:".toList) l
        audioBitrate := scanFirst (matchAVBitrate "audio:".toList) l }

/-- `parseStatsLine` on a string. -/
def parseStatsLine (line : String) : Option FFStats := parseStatsL line.toList

/-! ## FFmpegStatsParser.processData — streaming line assembly

`processData` appends the new chunk to the channel buffer, splits on
newlines, keeps the final (possibly incomplete) piece as the new buffer and
parses the complete lines. -/

/-- JS `str.split('\n')` on character lists: always a nonempty list of
pieces. -/
def splitNl : List Char → List (List Char)
  | [] => [[]]
  | c :: r =>
    let s := splitNl r
    if c = '\n' then [] :: s
    else (c :: s.headD []) :: s.tail

/-- The complete lines extracted by one `processData` call that starts from
buffer `buf` and receives chunk `data`. -/
def processLines (buf data : List Char) : List (List Char) :=
  (splitNl (buf ++ data)).dropLast

/-- The residual buffer left by one `processData` call (`lines.pop() || ''`). -/
def processBuf (buf data : List Char) : List Char :=
  (splitNl (buf ++ data)).getLastD []

/-- Whether a character stream contains a newline. -/
def hasNl : List Char → Bool
  | [] => false
  | c :: r => c = '\n' || hasNl r

/-- The portion of a character stream strictly after its last newline (the
whole stream when it has no newline). -/
def afterLastNl : List Char → List Char
  | [] => []
  | c :: r =>
    if hasNl r then afterLastNl r
    else if c = '\n' then r
    else c :: r

/-- Complete lines and residual piece of a character stream, computed in one
pass (an equivalent reformulation of `splitNl` used for reasoning). -/
def linesRes : List Char → List (List Char) × List Char
  | [] => ([], [])
  | c :: r =>
    let p := linesRes r
    if c = '\n' then ([] :: p.1, p.2)
    else
      match p.1 with
      | [] => ([], c :: p.2)
      | l :: ls => ((c :: l) :: ls, p.2)

theorem splitNl_eq_linesRes (l : List Char) :
    splitNl l = (linesRes l).1 ++ [(linesRes l).2] := by
  induction l with
  | nil => rfl
  | cons c r ih =>
    by_cases hc : c = '\n'
    · subst hc
      simp [splitNl, linesRes, ih]
    · cases h1 : (linesRes r).1 with
      | nil => simp [splitNl, linesRes, hc, ih, h1]
      | cons x xs => simp [splitNl, linesRes, hc, ih, h1]

theorem processLines_eq (buf data : List Char) :
    processLines buf data = (linesRes (buf ++ data)).1 := by
  simp [processLines, splitNl_eq_linesRes, List.dropLast_concat]

theorem processBuf_eq (buf data : List Char) :
    processBuf buf data = (linesRes (buf ++ data)).2 := by
  simp [processBuf, splitNl_eq_linesRes, List.getLastD_concat]

theorem linesRes_no_newline (r : List Char) (h : hasNl r = false) :
    linesRes r = ([], r) := by
  induction r with
  | nil => rfl
  | cons c t ih =>
    simp only [hasNl, Bool.or_eq_false_iff, decide_eq_false_iff_not] at h
    simp [linesRes, h.1, ih h.2]

theorem linesRes_fst_ne_nil (r : List Char) (h : hasNl r = true) :
    (linesRes r).1 ≠ [] := by
  induction r with
  | nil => simp [hasNl] at h
  | cons c t ih =>
    by_cases hc : c = '\n'
    · subst hc
      simp [linesRes]
    · simp only [hasNl, Bool.or_eq_true_iff, decide_eq_true_eq] at h
      rcases h with h | h
      · exact absurd h hc
      · have := ih h
        cases h1 : (linesRes t).1 with
        | nil => exact absurd h1 this
        | cons x xs => simp [linesRes, hc, h1]

theorem linesRes_snd_eq_afterLastNl (l : List Char) :
    (linesRes l).2 = afterLastNl l := by
  induction l with
  | nil => rfl
  | cons c r ih =>
    by_cases hn : hasNl r = true
    · have hne := linesRes_fst_ne_nil r hn
      by_cases hc : c = '\n'
      · subst hc
        simp [linesRes, afterLastNl, hn, ih]
      · cases h1 : (linesRes r).1 with
        | nil => exact absurd h1 hne
        | cons x xs => simpa [linesRes, afterLastNl, hn, hc, h1] using ih
    · have hn' : hasNl r = false := by simpa using hn
      have hr := linesRes_no_newline r hn'
      by_cases hc : c = '\n'
      · subst hc
        simp [linesRes, afterLastNl, hn', hr]
      · simp [linesRes, afterLastNl, hn', hc, hr]

theorem linesRes_assoc (b : List Char) :
    ∀ x : List Char,
      linesRes (x ++ b) =
        ((linesRes x).1 ++ (linesRes ((linesRes x).2 ++ b)).1,
          (linesRes ((linesRes x).2 ++ b)).2) := by
  intro x
  induction x with
  | nil => simp [linesRes]
  | cons c r ih =>
    by_cases hc : c = '\n'
    · subst hc
      simp [linesRes, ih]
    · cases h1 : (linesRes r).1 with
      | nil =>
        have hsplit : linesRes ((c :: (linesRes r).2) ++ b) =
            match (linesRes ((linesRes r).2 ++ b)).1 with
            | [] => ([], c :: (linesRes ((linesRes r).2 ++ b)).2)
            | l :: ls => ((c :: l) :: ls, (linesRes ((linesRes r).2 ++ b)).2) := by
          simp [linesRes, hc]
        cases h2 : (linesRes ((linesRes r).2 ++ b)).1 with
        | nil => simp [linesRes, hc, ih, h1, hsplit, h2]
        | cons y ys => simp [linesRes, hc, ih, h1, hsplit, h2]
      | cons x xs =>
        simp [linesRes, hc, ih, h1]

/-! ## Claim theorems for the metrics parser -/

/-- The literal progress line of spec scenario E6. -/
def e6Line : String :=
  "frame=  123 fps= 25 q=28.0 size=    1024kB time=00:00:05.00 bitrate=1677.7kbits/s speed=1.0x"

/-- C5: evaluating the parser at the literal E6 line.  The claim expects
`bitrate = 1677.7`; the code instead divides by 1000 (the matched unit
`kbits/s` contains the substring `bits/`, so the bits-per-second conversion
branch fires) and yields `1.6777`, against the parser's own documentation.
Every other claimed field (frame 123, fps 25, quality 28, size 1048576,
time 5, speed 1) is produced as claimed, and any line without `frame=`
yields `none`. -/
theorem C5_stats_parse_eval :
    parseStatsLine e6Line =
      some { frame := some 123, fps := some 25, quality := some 28, size := some 1048576,
             time := some 5, bitrate := some ((16777 : ℚ) / 10000), speed := some 1 }
    ∧ (16777 : ℚ) / 10000 ≠ (16777 : ℚ) / 10
    ∧ ∀ line : String, strIncludes line "frame=" = false → parseStatsLine line = none := by
  refine ⟨?_, by norm_num, ?_⟩
  · have hcont : containsL ("frame=".toList) e6Line.toList = true := by decide
    have hframe : scanFirst (matchKeyNat ("frame=".toList)) e6Line.toList = some 123 := by decide
    have hfps : scanFirst (matchKeyTok ("fps=".toList) true) e6Line.toList = some ['2','5'] := by
      decide
    have hq : scanFirst (matchKeyTok ("q=".toList) false) e6Line.toList =
        some ['2','8','.','0'] := by decide
    have hsize : scanFirst matchSize e6Line.toList = some 1048576 := by decide
    have htime : scanFirst matchTimeRaw e6Line.toList = some (0,0,5,0) := by decide
    have hbr : scanFirst matchBitrateUnitTok e6Line.toList =
        some (['1','6','7','7','.','7'], "kbits/s") := by decide
    have hspeed : scanFirst matchSpeedTok e6Line.toList = some ['1','.','0'] := by decide
    have hvb : scanFirst (matchAVBitrate ("video:".toList)) e6Line.toList = none := by decide
    have hab : scanFirst (matchAVBitrate ("audio:".toList)) e6Line.toList = none := by decide
    have hd1 : decParts ['2','5'] = some (25,0,0) := by decide
    have hd2 : decParts ['2','8','.','0'] = some (28,0,1) := by decide
    have hd3 : decParts ['1','6','7','7','.','7'] = some (1677,7,1) := by decide
    have hd4 : decParts ['1','.','0'] = some (1,0,1) := by decide
    have hs1 : strIncludes "kbits/s" "mbits" = false := by decide
    have hs2 : strIncludes "kbits/s" "mb/" = false := by decide
    have hs3 : strIncludes "kbits/s" "bits/" = true := by decide
    simp only [parseStatsLine, parseStatsL, hcont, hframe, hfps, hq, hsize, htime, hbr, hspeed,
      hvb, hab, parseDecQ, hd1, hd2, hd3, hd4, Option.map_some, Option.bind_some, Option.map,
      Option.bind, Function.comp, qOfParts, bitrateUnitConvert, hs1, hs2, hs3, qTruthy,
      Bool.false_or, Bool.or_false, if_true, if_false]
    norm_num
  · intro line h
    have h' : containsL ['f','r','a','m','e','='] line.data = false := h
    simp [parseStatsLine, parseStatsL, h']

/-- Witness for C5: a concrete line without `frame=` parses to nothing. -/
theorem C5_stats_parse_eval_witness : parseStatsLine "hello" = none :=
  C5_stats_parse_eval.2.2 "hello" (by decide)

/-- C10: the streaming parser is fragmentation-invariant.  Feeding chunk `a`
then chunk `b` leaves the same residual buffer as feeding `a ++ b` at once,
the complete lines parsed across the two calls are exactly those of the
single call, and the residual buffer always equals the portion of the input
seen so far that follows its last newline. -/
theorem C10_processData_fragmentation_invariant :
    ∀ buf a b : List Char,
      processBuf (processBuf buf a) b = processBuf buf (a ++ b)
      ∧ processLines buf a ++ processLines (processBuf buf a) b = processLines buf (a ++ b)
      ∧ processBuf buf a = afterLastNl (buf ++ a) := by
  intro buf a b
  have key := linesRes_assoc b (buf ++ a)
  refine ⟨?_, ?_, ?_⟩
  · simp only [processBuf_eq, ← List.append_assoc, key]
  · simp only [processBuf_eq, processLines_eq, ← List.append_assoc, key]
  · simp only [processBuf_eq, linesRes_snd_eq_afterLastNl]

/-! ## Data model (src/config/constants.js, src/models/Channel.js)

Channel fields are restricted to those the verified operations read.
JS parameter values are embedded as strings (numeric parameters appear via
their decimal string, as they do in the argv); absent fields are `none`.
JS truthiness on such an embedded value is `some s` with `s` nonempty. -/

/-- Channel status enumeration (`constants.CHANNEL_STATUS`). -/
inductive Status
  | running
  | stopped
  | error
  | restarting
deriving DecidableEq, Repr

/-- The three value shapes accepted for `input_options`, `output_options`
and `extra_options`: key-value map, flat array, or whitespace-joined
string. -/
inductive OptsVal
  | omap (kvs : List (String × String))
  | oarr (items : List String)
  | ostr (s : String)
deriving DecidableEq, Repr

/-- JS truthiness of an optional embedded string value. -/
def truthyS : Option String → Bool
  | none => false
  | some s => s ≠ ""

/-- The embedded string of an optional value (only read under `truthyS`). -/
def getS (o : Option String) : String := o.getD ""

/-- JS truthiness of options values: objects and arrays are truthy, a string
is truthy when nonempty. -/
def OptsVal.truthy : OptsVal → Bool
  | .omap _ => true
  | .oarr _ => true
  | .ostr s => s ≠ ""

/-- Recognized `ffmpeg_params` keys read by the verified code paths. -/
structure FFParams where
  fflags : Option String := none
  input_options : Option OptsVal := none
  video_codec : Option String := none
  audio_codec : Option String := none
  video_bitrate : Option String := none
  audio_bitrate : Option String := none
  resolution : Option String := none
  framerate : Option String := none
  video_filters : Option String := none
  audio_filters : Option String := none
  preset : Option String := none
  tune : Option String := none
  profile : Option String := none
  level : Option String := none
  g : Option String := none
  keyint_min : Option String := none
  sc_threshold : Option String := none
  vsync : Option String := none
  async : Option String := none
  crf : Option String := none
  qp : Option String := none
  maxrate : Option String := none
  minrate : Option String := none
  bufsize : Option String := none
  output_options : Option OptsVal := none
  extra_options : Option OptsVal := none
  muxrate : Option String := none
  gpu_index : Option Nat := none
  video_stream_index : Option Nat := none
  audio_stream_index : Option Nat := none
deriving DecidableEq, Repr

/-- A channel record as read from the store (fields the verified operations
use).  `ffmpeg_params := none` is a record without encoder parameters. -/
structure Channel where
  status : Status := .stopped
  auto_restart : Bool := true
  pid : Option Nat := none
  input_url : String := ""
  ffmpeg_params : Option FFParams := none
deriving DecidableEq, Repr

/-- A UDP output object. -/
structure UDPOutput where
  host : String := ""
  port : Nat := 0
  pkt_size : Option String := none
  buffer_size : Option String := none
  hls_program_index : Option Nat := none
  map_video : Option Bool := none
  map_audio : Option Bool := none
  realtime : Option Bool := none
deriving DecidableEq, Repr

/-! ## FFmpegManager (src/unnamed/part_007)

The manager routines interleave awaited store reads and writes with
in-memory bookkeeping.  They are embedded as pure transition functions: the
values produced by each `findById` re-read are explicit parameters (the
store has concurrent writers), the in-memory per-channel state
(`restartingChannels` membership and the `restartAttempts` entry) is passed
in and returned, and the outcome records which effects the call performed.
Status writes performed inside nested calls (`startChannel` writes RUNNING
on success) happen between the recorded events and are not listed. -/

/-- One `restartAttempts` entry: `{ count, lastAttempt }`, times in ms. -/
structure Attempt where
  count : Nat
  lastAttempt : Nat
deriving DecidableEq, Repr

/-- Per-channel in-memory manager state. -/
structure MgrCh where
  restarting : Bool
  attempts : Option Attempt
deriving DecidableEq, Repr

/-- Observable outcome of one `restartChannel` call. -/
structure RestartOutcome where
  success : Bool
  stopInvoked : Bool
  startInvoked : Bool
  statusWrites : List Status
  attemptsAfter : Option Attempt
  restartingAfter : Bool
deriving DecidableEq, Repr

/-- `FFmpegManager.restartChannel`: `st` is the in-memory state on entry,
`now` the clock at the budget check, `read1`/`read2` the two `findById`
results, `stopKilled` whether the inner `stopChannel` actually killed a
process (in which case it writes STOPPED and clears the restart
bookkeeping), and `startOk` whether the final `startChannel` reports
success.  `restartingAfter` is the in-memory flag immediately after the
call returns (the 10-second deferred cleanup is not modelled). -/
def restartChannel (st : MgrCh) (now : Nat) (read1 read2 : Option Channel)
    (stopKilled startOk : Bool) : RestartOutcome :=
  if st.restarting then
    ⟨false, false, false, [], st.attempts, st.restarting⟩
  else
    match read1 with
    | none => ⟨false, false, false, [], st.attempts, st.restarting⟩
    | some ch =>
      if ch.status = .stopped then ⟨false, false, false, [], st.attempts, st.restarting⟩
      else if ch.status = .restarting then ⟨false, false, false, [], st.attempts, st.restarting⟩
      else
        let budget : Option (Option Attempt) :=
          match st.attempts with
          | some a =>
            if now - a.lastAttempt < 120000 then
              if a.count ≥ 25 then none
              else some (some ⟨a.count + 1, now⟩)
            else some (some ⟨1, now⟩)
          | none => some (some ⟨1, now⟩)
        match budget with
        | none => ⟨false, false, false, [Status.error], none, false⟩
        | some att1 =>
          let attStop := if stopKilled then none else att1
          let restStop := if stopKilled then false else true
          let stopWrites : List Status := if stopKilled then [Status.stopped] else []
          match read2 with
          | none =>
            ⟨false, true, false, [Status.restarting] ++ stopWrites, none, false⟩
          | some cur =>
            if cur.status = .stopped then
              ⟨false, true, false, [Status.restarting] ++ stopWrites, none, false⟩
            else if startOk then
              ⟨true, true, true, [Status.restarting] ++ stopWrites, none, restStop⟩
            else
              ⟨false, true, true, [Status.restarting] ++ stopWrites ++ [Status.error],
                attStop, restStop⟩

/-- Observable outcome of `_handleProcessExit` / `checkChannel`. -/
structure ExitOutcome where
  statusWrites : List Status
  pidCleared : Bool
  restartScheduled : Bool
deriving DecidableEq, Repr

/-- `FFmpegManager._handleProcessExit`: `code` is the child exit code,
`read1`/`read2` the two `findById` results and `restartingHas` whether the
channel is in the in-memory `restartingChannels` set.
`restartScheduled` records whether the 5-second auto-restart timer was
registered. -/
def handleProcessExit (code : Int) (read1 read2 : Option Channel)
    (restartingHas : Bool) : ExitOutcome :=
  match read1 with
  | none => ⟨[], false, false⟩
  | some _ =>
    if code = 0 then ⟨[Status.stopped], true, false⟩
    else
      match read2 with
      | none => ⟨[], false, false⟩
      | some cur =>
        if cur.status ≠ .stopped ∧ cur.status ≠ .restarting ∧ restartingHas = false then
          ⟨[Status.error], false, cur.auto_restart⟩
        else
          ⟨[], true, false⟩

/-! ## HealthCheckManager.checkChannel (src/managers/HealthCheckManager.js) -/

/-- JS falsiness of the stored pid (`!channel.pid`): absent or zero. -/
def pidFalsy (p : Option Nat) : Bool := p = none || p = some 0

/-- `HealthCheckManager.checkChannel`: `ch` is the channel the loop walk
handed over, `procRunning` the `isProcessRunning` probe of its pid, and
`read2` the re-read of the channel performed before restarting. -/
def checkChannel (ch : Channel) (procRunning : Bool) (read2 : Option Channel) : ExitOutcome :=
  if pidFalsy ch.pid then ⟨[Status.stopped], false, false⟩
  else if procRunning = false ∧ ch.status = .running then
    match read2 with
    | none => ⟨[], false, false⟩
    | some cur =>
      if cur.status = .stopped then ⟨[], true, false⟩
      else if cur.status = .running then ⟨[Status.error], true, cur.auto_restart⟩
      else ⟨[], false, false⟩
  else ⟨[], false, false⟩

/-! ## Claim theorems for the supervisor -/

/-- C2 counterexample: invoked while a restart for the channel is already in
progress (`restartingChannels` holds it) with the attempt counter at the cap
and a recent last attempt, `restartChannel` returns failure at the duplicate
guard: it writes no ERROR status and leaves the counter in place, contrary
to the claim as stated. -/
theorem C2_budget_counterexample :
    restartChannel ⟨true, some ⟨25, 0⟩⟩ 0 (some { status := Status.error })
        (some { status := Status.error }) false false =
      ⟨false, false, false, [], some ⟨25, 0⟩, true⟩
    ∧ ([] : List Status) ≠ [Status.error] := by
  constructor
  · rfl
  · decide

/-- C2 amended: provided no restart for the channel is already in progress
and the initial read finds the channel with a status that is neither STOPPED
nor RESTARTING, a call made with the counter at 25 or more attempts and a
last attempt under the 2-minute window returns failure without stopping or
spawning anything, writes exactly one ERROR status and deletes the counter;
and every successful restart deletes the counter. -/
theorem C2_restart_budget :
    (∀ (st : MgrCh) (now : Nat) (r1 r2 : Option Channel) (sk so : Bool)
        (ch : Channel) (a : Attempt),
      st.restarting = false → r1 = some ch →
      ch.status ≠ Status.stopped → ch.status ≠ Status.restarting →
      st.attempts = some a → 25 ≤ a.count → now - a.lastAttempt < 120000 →
      restartChannel st now r1 r2 sk so =
        ⟨false, false, false, [Status.error], none, false⟩)
    ∧ (∀ (st : MgrCh) (now : Nat) (r1 r2 : Option Channel) (sk so : Bool),
      (restartChannel st now r1 r2 sk so).success = true →
      (restartChannel st now r1 r2 sk so).attemptsAfter = none) := by
  constructor
  · intro st now r1 r2 sk so ch a hrest hr1 hs1 hs2 hatt hcap hwin
    subst hr1
    simp [restartChannel, hrest, hs1, hs2, hatt, hwin, hcap]
  · intro st now r1 r2 sk so
    unfold restartChannel
    (repeat' split) <;> simp

/-- Witness for C2 at a concrete over-budget state. -/
theorem C2_restart_budget_witness :
    restartChannel ⟨false, some ⟨25, 5⟩⟩ 10 (some { status := Status.error }) none false false =
      ⟨false, false, false, [Status.error], none, false⟩ :=
  C2_restart_budget.1 ⟨false, some ⟨25, 5⟩⟩ 10 (some { status := Status.error }) none false false
    { status := Status.error } ⟨25, 5⟩ rfl rfl (by decide) (by decide) rfl (by decide) (by decide)

/-- C3: whenever the post-stop re-read (after the 1-second delay) observes
the channel with persisted status STOPPED, `restartChannel` returns failure
and never invokes `startChannel`, so that restart spawns no encoder
process.  This holds for every entry state, clock and first read. -/
theorem C3_stop_during_restart :
    ∀ (st : MgrCh) (now : Nat) (r1 : Option Channel) (c : Channel) (sk so : Bool),
      c.status = Status.stopped →
      (restartChannel st now r1 (some c) sk so).startInvoked = false
      ∧ (restartChannel st now r1 (some c) sk so).success = false := by
  intro st now r1 c sk so hc
  unfold restartChannel
  (repeat' split) <;> simp_all

/-- Witness for C3 at a concrete mid-restart state. -/
theorem C3_stop_during_restart_witness :
    (restartChannel ⟨false, none⟩ 0 (some { status := Status.running })
        (some { status := Status.stopped }) true false).startInvoked = false
    ∧ (restartChannel ⟨false, none⟩ 0 (some { status := Status.running })
        (some { status := Status.stopped }) true false).success = false :=
  C3_stop_during_restart ⟨false, none⟩ 0 (some { status := Status.running })
    { status := Status.stopped } true false rfl

/-- C4 counterexample: a non-zero exit observed while the re-read status is
STOPPED (the operator stopped the channel as it died) writes no ERROR
status at all: the handler only clears the pid, contrary to the claim as
stated. -/
theorem C4_exit_counterexample :
    handleProcessExit 1 (some { status := Status.stopped })
        (some { status := Status.stopped }) false = ⟨[], true, false⟩
    ∧ (handleProcessExit 1 (some { status := Status.stopped })
        (some { status := Status.stopped }) false).statusWrites.contains Status.error = false := by
  constructor
  · rfl
  · decide

/-- C4 amended: when the exiting channel exists in the store, exit code 0
writes STOPPED and clears the pid; a non-zero code whose re-read status is
neither STOPPED nor RESTARTING, with no restart in progress, writes ERROR
and registers the auto-restart timer exactly when `auto_restart` is set;
a non-zero code in any other case only clears the pid. -/
theorem C4_exit_codes :
    (∀ (r2 : Option Channel) (rh : Bool) (ch : Channel),
      handleProcessExit 0 (some ch) r2 rh = ⟨[Status.stopped], true, false⟩)
    ∧ (∀ (code : Int) (ch cur : Channel) (rh : Bool),
      code ≠ 0 → cur.status ≠ Status.stopped → cur.status ≠ Status.restarting → rh = false →
      handleProcessExit code (some ch) (some cur) rh =
        ⟨[Status.error], false, cur.auto_restart⟩)
    ∧ (∀ (code : Int) (ch cur : Channel) (rh : Bool),
      code ≠ 0 → (cur.status = Status.stopped ∨ cur.status = Status.restarting ∨ rh = true) →
      handleProcessExit code (some ch) (some cur) rh = ⟨[], true, false⟩) := by
  refine ⟨?_, ?_, ?_⟩
  · intro r2 rh ch
    rfl
  · intro code ch cur rh hc h1 h2 h3
    unfold handleProcessExit
    simp [hc, h1, h2, h3]
  · intro code ch cur rh hc h
    unfold handleProcessExit
    rcases h with h | h | h <;> simp [hc, h]

/-- Witness for C4 at a concrete crash with auto-restart enabled. -/
theorem C4_exit_codes_witness :
    handleProcessExit 1 (some { status := Status.running })
        (some { status := Status.error, auto_restart := true }) false =
      ⟨[Status.error], false, true⟩ :=
  C4_exit_codes.2.1 1 { status := Status.running }
    { status := Status.error, auto_restart := true } false (by decide) (by decide) (by decide) rfl

/-- C9: a channel the health loop examines whose persisted status is RUNNING
but whose persisted pid is null is corrected to STOPPED, with no pid write
and no restart scheduled. -/
theorem C9_running_null_pid :
    ∀ (ch : Channel) (pr : Bool) (r2 : Option Channel),
      ch.status = Status.running → ch.pid = none →
      checkChannel ch pr r2 = ⟨[Status.stopped], false, false⟩ := by
  intro ch pr r2 _ hpid
  unfold checkChannel
  simp [pidFalsy, hpid]

/-- Witness for C9 at a concrete RUNNING channel without pid. -/
theorem C9_running_null_pid_witness :
    checkChannel { status := Status.running, pid := none } true none =
      ⟨[Status.stopped], false, false⟩ :=
  C9_running_null_pid { status := Status.running, pid := none } true none rfl rfl

/-! ## FFmpegCommandBuilder (src/unnamed/part_000)

The builder consults three external facilities: the environment variables,
the memoised encoder introspection (`_detectHardwareAcceleration`, which
shells out) and the filesystem / GPU enumeration used for VAAPI device
resolution.  All three enter the embedding as explicit inputs bundled in
`BuildExt`, so that the builder itself is the pure function the claims are
about.  VAAPI failures return `Except.error`, transcribing the thrown
exceptions (messages abbreviated to their identifying head). -/

/-- Environment variables read by the builder. -/
structure Env where
  hwaccelEnabled : Option String := none
  hwaccelAuto : Option String := none
  nvencPreset : Option String := none

/-- Result of `_detectHardwareAcceleration` (kind flags plus the preferred
h264 codec name, `none` when no accelerator was detected). -/
structure HwDetect where
  nvenc : Bool := false
  qsv : Bool := false
  vaapi : Bool := false
  videotoolbox : Bool := false
  codec : Option String := none

/-- One entry of `gpuDetectionService.detectGPUs()`. -/
structure GPU where
  gtype : String
  index : Nat
  device : Option String

/-- External world of the builder: environment, detection result,
filesystem predicates (`fs.existsSync`, `fs.accessSync` readability),
GPU enumeration (`none` models `detectGPUs` throwing) and the configured
default VAAPI device (`constants.FFMPEG_HWACCEL.VAAPI_DEVICE ||
'/dev/dri/renderD128'`, whose constants module is not part of the sources;
it is carried as an opaque string). -/
structure BuildExt where
  env : Env := {}
  hw : HwDetect := {}
  fsExists : String → Bool := fun _ => false
  fsReadable : String → Bool := fun _ => false
  gpus : Option (List GPU) := none
  vaapiDefault : String := "/dev/dri/renderD128"

/-- `constants.FFMPEG_PATH` default. -/
def ffmpegPath : String := "ffmpeg"

/-- A built command: program plus argv. -/
structure FFCmd where
  command : String
  args : List String
deriving DecidableEq, Repr

/-- `_getHardwareVideoCodec`: hardware-mapped codec for a request, or
`none`.  Transcribed branch for branch, including the fall-through of an
unaccelerated h264/h265 request to the already-hardware suffix test. -/
def getHardwareVideoCodec (env : Env) (hw : HwDetect) (requested : Option String) :
    Option String :=
  if env.hwaccelEnabled = some "false" then none
  else
    let req := getS requested
    if req ≠ "" ∧ req ≠ "copy" then
      if (req = "h264" ∨ req = "libx264") ∧ truthyS hw.codec then hw.codec
      else if (req = "hevc" ∨ req = "libx265" ∨ req = "h265") ∧ hw.nvenc then some "hevc_nvenc"
      else if (req = "hevc" ∨ req = "libx265" ∨ req = "h265") ∧ hw.qsv then some "hevc_qsv"
      else if (req = "hevc" ∨ req = "libx265" ∨ req = "h265") ∧ hw.vaapi then some "hevc_vaapi"
      else if (req = "hevc" ∨ req = "libx265" ∨ req = "h265") ∧ hw.videotoolbox then
        some "hevc_videotoolbox"
      else if strIncludes req "_nvenc" ∨ strIncludes req "_qsv" ∨ strIncludes req "_vaapi"
          ∨ strIncludes req "_videotoolbox" then some req
      else none
    else
      if env.hwaccelAuto = some "true" then hw.codec else none

/-- `_determineHardwareCodec`: `none` without params, else the hardware
codec for `video_codec || 'copy'`. -/
def determineHardwareCodec (env : Env) (hw : HwDetect) (ch : Channel) : Option String :=
  match ch.ffmpeg_params with
  | none => none
  | some p =>
    getHardwareVideoCodec env hw (some (if truthyS p.video_codec then getS p.video_codec else "copy"))

/-- `_getVAAPIDeviceByIndex`: enumerated device for the index when present,
existing and readable; else the conventional `renderD(128+index)` path when
existing and readable; else the configured default (returned regardless of
its own accessibility). -/
def getVAAPIDeviceByIndex (ext : BuildExt) (i : Nat) : String :=
  let tryRender : String :=
    let p := "/dev/dri/renderD" ++ toString (128 + i)
    if ext.fsExists p && ext.fsReadable p then p else ext.vaapiDefault
  match ext.gpus with
  | none => ext.vaapiDefault
  | some gpus =>
    match gpus.find? (fun g => g.gtype = "vaapi" && g.index = i) with
    | some g =>
      match g.device with
      | some d => if ext.fsExists d && ext.fsReadable d then d else tryRender
      | none => tryRender
    | none => tryRender

/-- The VAAPI device path `_addHardwareAccelerationArgs` resolves for a
channel: by index when `gpu_index` is set, else the configured default. -/
def resolveVAAPIDevice (ext : BuildExt) (p? : Option FFParams) : String :=
  match p? with
  | some p =>
    match p.gpu_index with
    | some i => getVAAPIDeviceByIndex ext i
    | none => ext.vaapiDefault
  | none => ext.vaapiDefault

/-- `_addHardwareAccelerationArgs`: pre-input hwaccel arguments per codec
family.  The VAAPI branch verifies the resolved device and throws when it
does not exist or is not readable; it never substitutes a software codec. -/
def addHardwareAccelerationArgs (ext : BuildExt) (hwCodec : String) (p? : Option FFParams) :
    Except String (List String) :=
  if strIncludes hwCodec "_nvenc" then .ok []
  else if strIncludes hwCodec "_qsv" then .ok ["-hwaccel", "qsv", "-hwaccel_output_format", "qsv"]
  else if strIncludes hwCodec "_vaapi" then
    let dev := resolveVAAPIDevice ext p?
    if ext.fsExists dev = false then
      .error ("Dispositivo VAAPI no encontrado: " ++ dev)
    else if ext.fsReadable dev = false then
      .error ("Dispositivo VAAPI no accesible: " ++ dev)
    else .ok ["-hwaccel", "vaapi", "-vaapi_device", dev]
  else if strIncludes hwCodec "_videotoolbox" then .ok ["-hwaccel", "videotoolbox"]
  else .ok []

/-- `_addHardwareEncoderArgs`: post-codec encoder arguments (NVENC gpu
index only). -/
def hwEncoderArgs (hwCodec : String) (gpuIndex : Option Nat) : List String :=
  if strIncludes hwCodec "_nvenc" then
    match gpuIndex with
    | some i => ["-gpu", toString i]
    | none => []
  else []

/-- `_processInputOptions` / `_processOutputOptions` (the two source methods
are identical): a map expands to `-key value` pairs in insertion order, an
array is spread, a string is split on single spaces. -/
def processOptsVal : OptsVal → List String
  | .omap kvs => kvs.foldr (fun kv acc => ("-" ++ kv.1) :: kv.2 :: acc) []
  | .oarr items => items
  | .ostr s => s.splitOn " "

/-- `_processStreamMapping`: explicit stream indices, defaulting the other
kind to stream 0 when only one is given. -/
def processStreamMapping (p : FFParams) : List String :=
  (match p.video_stream_index with
   | some vi => ["-map", "0:v:" ++ toString vi]
   | none => if p.audio_stream_index.isSome then ["-map", "0:v:0"] else [])
  ++ (match p.audio_stream_index with
   | some ai => ["-map", "0:a:" ++ toString ai]
   | none => if p.video_stream_index.isSome then ["-map", "0:a:0"] else [])

/-- The fixed NVENC preset table of `_mapPresetForHardwareCodec`. -/
def nvencPresetTable : String → Option String
  | "ultrafast" => some "p1"
  | "superfast" => some "p1"
  | "veryfast" => some "p2"
  | "faster" => some "p3"
  | "fast" => some "p3"
  | "medium" => some "p4"
  | "slow" => some "p5"
  | "slower" => some "p6"
  | "veryslow" => some "p7"
  | _ => none

/-- The regex `^p[1-7]$` with the `i` flag. -/
def isPNum (s : String) : Bool :=
  match s.toList with
  | [p, d] => lcChar p = 'p' && ('1' ≤ d && d ≤ '7')
  | _ => false

/-- `_mapPresetForHardwareCodec`: for NVENC codecs, table-map the preset
(lower-cased); pass `p1`..`p7` through lower-cased; anything else, and all
other codec families, map to `none` (keep the original preset). -/
def mapPresetForHardwareCodec (preset codec : String) : Option String :=
  if preset = "" ∨ codec = "" then none
  else if strIncludes codec "_nvenc" then
    match nvencPresetTable (lowerStr preset) with
    | some m => some m
    | none => if isPNum preset then some (lowerStr preset) else none
  else none

/-- The preset block of `_processEncodingParams`: the declared preset,
overridden for NVENC codecs by a truthy `NVENC_PRESET` environment value,
else table-mapped; with no declared preset, a truthy `NVENC_PRESET` is
still emitted for NVENC codecs. -/
def presetArgs (preset videoCodec envNvenc : Option String) : List String :=
  if truthyS preset then
    let p := getS preset
    let pFinal :=
      if truthyS videoCodec then
        let vc := getS videoCodec
        if strIncludes vc "_nvenc" ∧ truthyS envNvenc then getS envNvenc
        else
          match mapPresetForHardwareCodec p vc with
          | some m => m
          | none => p
      else p
    ["-preset", pFinal]
  else if truthyS videoCodec ∧ strIncludes (getS videoCodec) "_nvenc" ∧ truthyS envNvenc then
    ["-preset", getS envNvenc]
  else []

/-- `_processEncodingParams`: preset block, then each recognised tuning flag
in source order (`crf`/`qp` are emitted whenever defined, the rest only when
truthy). -/
def processEncodingParams (envNvenc : Option String) (p : FFParams) (videoCodec : Option String) :
    List String :=
  presetArgs p.preset videoCodec envNvenc
  ++ (if truthyS p.tune then ["-tune", getS p.tune] else [])
  ++ (if truthyS p.profile then ["-profile:v", getS p.profile] else [])
  ++ (if truthyS p.level then ["-level", getS p.level] else [])
  ++ (if truthyS p.g then ["-g", getS p.g] else [])
  ++ (if truthyS p.keyint_min then ["-keyint_min", getS p.keyint_min] else [])
  ++ (if truthyS p.sc_threshold then ["-sc_threshold", getS p.sc_threshold] else [])
  ++ (if truthyS p.vsync then ["-vsync", getS p.vsync] else [])
  ++ (if truthyS p.async then ["-async", getS p.async] else [])
  ++ (match p.crf with | some v => ["-crf", v] | none => [])
  ++ (match p.qp with | some v => ["-qp", v] | none => [])
  ++ (if truthyS p.maxrate then ["-maxrate", getS p.maxrate] else [])
  ++ (if truthyS p.minrate then ["-minrate", getS p.minrate] else [])
  ++ (if truthyS p.bufsize then ["-bufsize", getS p.bufsize] else [])

/-- The live-source test of `buildUDPCommand` on the lower-cased input
URL. -/
def isHLSInput (url : String) : Bool :=
  let lu := lowerStr url
  strIncludes lu ".m3u8" || strStarts lu "http://" || strStarts lu "https://"
    || strStarts lu "hls://"

/-- The `-re` block: realtime unless explicitly disabled or the input is a
live HLS/HTTP source. -/
def realtimeArgs (out : UDPOutput) (url : String) : List String :=
  if out.realtime ≠ some false ∧ isHLSInput url = false then ["-re"] else []

/-- The `fflags` block of `buildUDPCommand`: a declared truthy `fflags`, or
`+genpts` for live sources. -/
def fflagsArgs (p? : Option FFParams) (url : String) : List String :=
  match p? with
  | some p =>
    if truthyS p.fflags then ["-fflags", getS p.fflags]
    else if isHLSInput url then ["-fflags", "+genpts"]
    else []
  | none => if isHLSInput url then ["-fflags", "+genpts"] else []

/-- The `input_options` block (truthy options only). -/
def inputOptsArgs (p? : Option FFParams) : List String :=
  match p? with
  | some p =>
    match p.input_options with
    | some o => if o.truthy then processOptsVal o else []
    | none => []
  | none => []

/-- The stream-map block of `buildUDPCommand`: declared stream indices take
priority; else per-output program-index or default maps, each suppressible
with `map_video: false` / `map_audio: false`. -/
def udpMapArgs (p? : Option FFParams) (out : UDPOutput) : List String :=
  let useIdx :=
    match p? with
    | some p => p.video_stream_index.isSome || p.audio_stream_index.isSome
    | none => false
  if useIdx then
    match p? with
    | some p => processStreamMapping p
    | none => []
  else
    (if out.map_video ≠ some false then
      match out.hls_program_index with
      | some pi => ["-map", "0:p:" ++ toString pi ++ ":v"]
      | none => ["-map", "0:v:0"]
    else [])
    ++ (if out.map_audio ≠ some false then
      match out.hls_program_index with
      | some pi => ["-map", "0:p:" ++ toString pi ++ ":a"]
      | none => ["-map", "0:a:0"]
    else [])

/-- The effective video codec string at the encoding-params call site:
`hwCodec || (video_codec || 'copy')`. -/
def currentCodec (p : FFParams) (hwCodec : Option String) : String :=
  match hwCodec with
  | some hc => hc
  | none => if truthyS p.video_codec then getS p.video_codec else "copy"

/-- The transcoding block of `buildUDPCommand`: codec selections (hardware
codec plus its encoder args when substituted), rate/size selectors,
filters, encoding params, output options and extra options; or `-c copy`
when the channel has no params object at all. -/
def udpCodecSection (envNvenc : Option String) (p? : Option FFParams) (hwCodec : Option String) :
    List String :=
  match p? with
  | none => ["-c", "copy"]
  | some p =>
    (match hwCodec with
     | some hc => ["-c:v", hc] ++ hwEncoderArgs hc p.gpu_index
     | none => ["-c:v", if truthyS p.video_codec then getS p.video_codec else "copy"])
    ++ (if truthyS p.audio_codec then ["-c:a", getS p.audio_codec] else ["-c:a", "copy"])
    ++ (if truthyS p.video_bitrate then ["-b:v", getS p.video_bitrate] else [])
    ++ (if truthyS p.audio_bitrate then ["-b:a", getS p.audio_bitrate] else [])
    ++ (if truthyS p.resolution then ["-s", getS p.resolution] else [])
    ++ (if truthyS p.framerate then ["-r", getS p.framerate] else [])
    ++ (if truthyS p.video_filters then ["-vf", getS p.video_filters] else [])
    ++ (if truthyS p.audio_filters then ["-af", getS p.audio_filters] else [])
    ++ processEncodingParams envNvenc p (some (currentCodec p hwCodec))
    ++ (match p.output_options with
        | some o => if o.truthy then processOptsVal o else []
        | none => [])
    ++ (match p.extra_options with
        | some (.oarr items) => items
        | some (.ostr s) => if s ≠ "" then s.splitOn " " else []
        | _ => [])

/-- `Math.ceil((videoBps + 128000) * 1.3)` as exact natural arithmetic
(`⌈13·(bps+128000)/10⌉`; for every representable input the double rounding
of the literal 1.3 does not move the ceiling). -/
def muxCeil (bps : Nat) : Nat := (13 * (bps + 128000) + 9) / 10

/-- The muxrate block of `buildUDPCommand`: explicit truthy `muxrate`
override; else, for a truthy `video_bitrate`, the digits of the bitrate
string scaled by 1e6 when it contains `M`, by 1e3 when it contains `k`,
and 0 otherwise, fed through `muxCeil` (a digitless string with a unit is
JS NaN); else the 10080000 default. -/
def udpMuxrate (p? : Option FFParams) : String :=
  match p? with
  | none => "10080000"
  | some p =>
    if truthyS p.muxrate then getS p.muxrate
    else if truthyS p.video_bitrate then
      let s := getS p.video_bitrate
      let ds := s.toList.filter Char.isDigit
      let hasM := s.toList.contains 'M'
      let hasK := s.toList.contains 'k'
      let bitrateNum : Option Nat := if ds.isEmpty then none else some (natOfDigits ds)
      let videoBps : Option Nat :=
        if hasM then bitrateNum.map (· * 1000000)
        else if hasK then bitrateNum.map (· * 1000)
        else some 0
      match videoBps with
      | some bps => toString (muxCeil bps)
      | none => "NaN"
    else "10080000"

/-- The fixed MPEG-TS compatibility tail of every UDP command. -/
def udpFixedTail : List String :=
  ["-pcr_period", "20", "-pat_period", "0.1", "-streamid", "0:0x100", "-streamid", "1:0x101",
   "-mpegts_flags", "resend_headers", "-flush_packets", "1", "-bufsize", "65536"]

/-- The UDP destination URL with optional `pkt_size` / `buffer_size`
query parameters. -/
def udpUrlOf (out : UDPOutput) : String :=
  let base := "udp://" ++ out.host ++ ":" ++ toString out.port
  let ps :=
    (if truthyS out.pkt_size then ["pkt_size=" ++ getS out.pkt_size] else [])
    ++ (if truthyS out.buffer_size then ["buffer_size=" ++ getS out.buffer_size] else [])
  if ps ≠ [] then base ++ "?" ++ String.intercalate "&" ps else base

/-- `buildUDPCommand`: the full UDP argv in source push order — realtime,
fflags, hardware acceleration (fallible), input options, input, stream
maps, transcoding section, MPEG-TS format and muxrate, fixed tail,
destination URL. -/
def hwAccelArgsOf (ext : BuildExt) (p? : Option FFParams) (hwCodec : Option String) :
    Except String (List String) :=
  match hwCodec with
  | none => .ok []
  | some hc => addHardwareAccelerationArgs ext hc p?

def buildUDPCommand (ext : BuildExt) (ch : Channel) (out : UDPOutput) : Except String FFCmd :=
  let hwCodec := determineHardwareCodec ext.env ext.hw ch
  match hwAccelArgsOf ext ch.ffmpeg_params hwCodec with
  | .error e => .error e
  | .ok hwArgs =>
    .ok ⟨ffmpegPath,
      realtimeArgs out ch.input_url
      ++ fflagsArgs ch.ffmpeg_params ch.input_url
      ++ hwArgs
      ++ inputOptsArgs ch.ffmpeg_params
      ++ ["-i", ch.input_url]
      ++ udpMapArgs ch.ffmpeg_params out
      ++ udpCodecSection ext.env.nvencPreset ch.ffmpeg_params hwCodec
      ++ ["-f", "mpegts", "-muxrate", udpMuxrate ch.ffmpeg_params]
      ++ udpFixedTail
      ++ [udpUrlOf out]⟩

/-! ## Claim theorems for the command builder -/

/-- Whether two strings occur adjacently (flag followed by its value)
anywhere in an argv. -/
def argvHasPair (l : List String) (a b : String) : Bool :=
  match l with
  | [] => false
  | [_] => false
  | x :: y :: rest => (x = a && y = b) || argvHasPair (y :: rest) a b

/-- The E1 channel: live HLS input, no ffmpeg_params. -/
def c1chan : Channel := { input_url := "https://ex/live.m3u8" }

/-- The E1 output: one UDP sink. -/
def c1out : UDPOutput := { host := "10.0.0.1", port := 5000 }

/-- The argv `buildUDPCommand` produces for the E1 channel. -/
def c1args : List String :=
  ["-fflags", "+genpts", "-i", "https://ex/live.m3u8", "-map", "0:v:0", "-map", "0:a:0",
   "-c", "copy", "-f", "mpegts", "-muxrate", "10080000", "-pcr_period", "20", "-pat_period",
   "0.1", "-streamid", "0:0x100", "-streamid", "1:0x101", "-mpegts_flags", "resend_headers",
   "-flush_packets", "1", "-bufsize", "65536", "udp://10.0.0.1:5000"]

/-- C1: for the E1 channel (live `.m3u8` input, one UDP output, no
ffmpeg_params) and any external world, the built argv omits `-re`,
contains `-fflags +genpts`, the default maps, `-c copy`, `-f mpegts` and
`-muxrate 10080000`, and ends with the UDP destination URL. -/
theorem C1_udp_live_hls_argv :
    ∀ ext : BuildExt,
      buildUDPCommand ext c1chan c1out = .ok ⟨ffmpegPath, c1args⟩
      ∧ c1args.contains "-re" = false
      ∧ argvHasPair c1args "-fflags" "+genpts" = true
      ∧ argvHasPair c1args "-map" "0:v:0" = true
      ∧ argvHasPair c1args "-map" "0:a:0" = true
      ∧ argvHasPair c1args "-c" "copy" = true
      ∧ argvHasPair c1args "-f" "mpegts" = true
      ∧ argvHasPair c1args "-muxrate" "10080000" = true
      ∧ c1args.getLast? = some "udp://10.0.0.1:5000" := by
  intro ext
  refine ⟨rfl, by decide, by decide, by decide, by decide, by decide, by decide, by decide,
    by decide⟩

/-- C6: whenever the builder resolves a VAAPI hardware codec and the
resolved render device does not exist or is not readable, `buildUDPCommand`
surfaces the descriptive device error instead of producing a command — it
never falls back to a software codec. -/
theorem C6_vaapi_fail_fast :
    ∀ (ext : BuildExt) (ch : Channel) (out : UDPOutput) (hwc : String),
      determineHardwareCodec ext.env ext.hw ch = some hwc →
      strIncludes hwc "_nvenc" = false →
      strIncludes hwc "_qsv" = false →
      strIncludes hwc "_vaapi" = true →
      (ext.fsExists (resolveVAAPIDevice ext ch.ffmpeg_params) = false
        ∨ ext.fsReadable (resolveVAAPIDevice ext ch.ffmpeg_params) = false) →
      (buildUDPCommand ext ch out =
          .error ("Dispositivo VAAPI no encontrado: " ++ resolveVAAPIDevice ext ch.ffmpeg_params)
        ∨ buildUDPCommand ext ch out =
          .error ("Dispositivo VAAPI no accesible: " ++ resolveVAAPIDevice ext ch.ffmpeg_params)) := by
  intro ext ch out hwc hdet h1 h2 h3 hdev
  by_cases he : ext.fsExists (resolveVAAPIDevice ext ch.ffmpeg_params) = false
  · left
    simp [buildUDPCommand, hwAccelArgsOf, addHardwareAccelerationArgs, hdet, h1, h2, h3, he]
  · rcases hdev with hdev | hdev
    · exact absurd hdev he
    · right
      have he' : ext.fsExists (resolveVAAPIDevice ext ch.ffmpeg_params) = true := by
        simpa using he
      simp [buildUDPCommand, hwAccelArgsOf, addHardwareAccelerationArgs, hdet, h1, h2, h3, he', hdev]

/-- The external world of the C6 witness: VAAPI probed available, no file
accessible. -/
def c6ext : BuildExt :=
  { hw := { vaapi := true, codec := some "h264_vaapi" } }

/-- The C6 witness channel: requests h264, which the probe maps to
`h264_vaapi`. -/
def c6chan : Channel :=
  { input_url := "https://ex/live.m3u8", ffmpeg_params := some { video_codec := some "h264" } }

/-- Witness for C6: with every device missing, the build fails with the
device-not-found error. -/
theorem C6_vaapi_fail_fast_witness :
    buildUDPCommand c6ext c6chan c1out =
        .error ("Dispositivo VAAPI no encontrado: " ++ resolveVAAPIDevice c6ext c6chan.ffmpeg_params)
      ∨ buildUDPCommand c6ext c6chan c1out =
        .error ("Dispositivo VAAPI no accesible: " ++ resolveVAAPIDevice c6ext c6chan.ffmpeg_params) :=
  C6_vaapi_fail_fast c6ext c6chan c1out "h264_vaapi" rfl (by decide) (by decide) (by decide)
    (Or.inl rfl)

/-- Ceiling division by 10 via natural arithmetic. -/
theorem natCeil_div_ten (A : Nat) : (A + 9) / 10 = ⌈(A : ℚ) / 10⌉₊ := by
  apply le_antisymm
  · have h := Nat.le_ceil ((A : ℚ) / 10)
    rw [div_le_iff₀ (by norm_num : (0 : ℚ) < 10)] at h
    have hA : A ≤ ⌈(A : ℚ) / 10⌉₊ * 10 := by exact_mod_cast h
    omega
  · refine Nat.ceil_le.mpr ?_
    rw [div_le_iff₀ (by norm_num : (0 : ℚ) < 10)]
    have h : A ≤ ((A + 9) / 10) * 10 := by omega
    exact_mod_cast h

/-- `muxCeil` computes the exact ceiling of `(bps + 128000) · 13/10`. -/
theorem muxCeil_eq_ceil (bps : Nat) :
    muxCeil bps = ⌈(((bps : ℚ) + 128000) * 13) / 10⌉₊ := by
  have hcast : (((bps : ℚ) + 128000) * 13) / 10 = ((13 * (bps + 128000) : ℕ) : ℚ) / 10 := by
    push_cast
    ring
  rw [hcast, ← natCeil_div_ten]
  rfl

/-- The bits-per-second value the (amended) claim derives from the declared
bitrate string: its digits scaled by 1e6 when the string contains `M`, by
1e3 when it contains `k`, and 0 otherwise (`none` is the JS NaN of a
digitless string with a unit letter). -/
def specBps (s : String) : Option Nat :=
  let digits := s.toList.filter Char.isDigit
  if s.toList.contains 'M' then
    if digits.isEmpty then none else some (natOfDigits digits * 1000000)
  else if s.toList.contains 'k' then
    if digits.isEmpty then none else some (natOfDigits digits * 1000)
  else some 0

/-- The amended claim's muxrate value: explicit truthy override; else
`⌈(video_bps + 128000) · 1.3⌉` from the declared bitrate via `specBps`;
else the 10080000 default. -/
def muxrateSpec (p? : Option FFParams) : String :=
  match p? with
  | some p =>
    if truthyS p.muxrate then getS p.muxrate
    else if truthyS p.video_bitrate then
      match specBps (getS p.video_bitrate) with
      | some bps => toString ⌈(((bps : ℚ) + 128000) * 13) / 10⌉₊
      | none => "NaN"
    else "10080000"
  | none => "10080000"

/-- The builder's inline muxrate computation agrees with the amended
specification for every parameter record. -/
theorem udpMuxrate_eq_spec (p? : Option FFParams) : udpMuxrate p? = muxrateSpec p? := by
  cases p? with
  | none => rfl
  | some p =>
    simp only [udpMuxrate, muxrateSpec, specBps]
    cases h1 : truthyS p.muxrate
    · cases h2 : truthyS p.video_bitrate
      · simp
      · cases hM : (getS p.video_bitrate).toList.contains 'M'
        · cases hK : (getS p.video_bitrate).toList.contains 'k'
          · simp [muxCeil_eq_ceil]
          · cases hE : ((getS p.video_bitrate).toList.filter Char.isDigit).isEmpty
            · simp [muxCeil_eq_ceil]
            · simp
        · cases hE : ((getS p.video_bitrate).toList.filter Char.isDigit).isEmpty
          · simp [muxCeil_eq_ceil]
          · simp
    · simp

/-- The C7 counterexample channel: a bare-number bitrate declaration. -/
def c7chan : Channel :=
  { input_url := "udp://in", ffmpeg_params := some { video_bitrate := some "3000000" } }

/-- The argv built for the C7 counterexample channel. -/
def c7args : List String :=
  ["-re", "-i", "udp://in", "-map", "0:v:0", "-map", "0:a:0", "-c:v", "copy", "-c:a", "copy",
   "-b:v", "3000000", "-f", "mpegts", "-muxrate", "166400", "-pcr_period", "20", "-pat_period",
   "0.1", "-streamid", "0:0x100", "-streamid", "1:0x101", "-mpegts_flags", "resend_headers",
   "-flush_packets", "1", "-bufsize", "65536", "udp://10.0.0.1:5000"]

/-- C7 counterexample: for a declared `video_bitrate` of `"3000000"`
(3 Mbps in bits per second), the claimed formula gives
`⌈(3000000 + 128000) · 1.3⌉ = 4066400`, but the built argv carries
`-muxrate 166400` (the code only scales bitrate strings containing `M` or
`k`; a bare number leaves `video_bps = 0`). -/
theorem C7_muxrate_counterexample :
    buildUDPCommand {} c7chan c1out = .ok ⟨ffmpegPath, c7args⟩
    ∧ argvHasPair c7args "-muxrate" "166400" = true
    ∧ c7args.contains "4066400" = false
    ∧ muxCeil 3000000 = 4066400 := by
  refine ⟨rfl, by decide, by decide, by decide⟩

/-- The payload of a successful hardware-args computation. -/
def hwArgsOk (e : Except String (List String)) : List String :=
  match e with
  | .ok l => l
  | .error _ => []

/-- Everything a successfully built UDP argv carries before its
`-f mpegts` block. -/
def udpFront (ext : BuildExt) (ch : Channel) (out : UDPOutput) : List String :=
  realtimeArgs out ch.input_url
  ++ fflagsArgs ch.ffmpeg_params ch.input_url
  ++ hwArgsOk (hwAccelArgsOf ext ch.ffmpeg_params (determineHardwareCodec ext.env ext.hw ch))
  ++ inputOptsArgs ch.ffmpeg_params
  ++ ["-i", ch.input_url]
  ++ udpMapArgs ch.ffmpeg_params out
  ++ udpCodecSection ext.env.nvencPreset ch.ffmpeg_params
      (determineHardwareCodec ext.env ext.hw ch)

/-- C7 amended: every successfully built UDP argv carries, after its
`-f mpegts`, the pair `-muxrate v` followed by the fixed MPEG-TS tail and
the destination URL, where `v` is the explicit truthy `muxrate` override
when present, else `⌈(video_bps + 128000) · 13/10⌉` for a truthy declared
bitrate with `video_bps` as in `specBps` (digits · 1e6 for an `M` string,
digits · 1e3 for a `k` string, 0 otherwise), else `"10080000"`. -/
theorem C7_muxrate :
    ∀ (ext : BuildExt) (ch : Channel) (out : UDPOutput) (r : FFCmd),
      buildUDPCommand ext ch out = .ok r →
      r.args = udpFront ext ch out
        ++ ["-f", "mpegts", "-muxrate", muxrateSpec ch.ffmpeg_params]
        ++ udpFixedTail ++ [udpUrlOf out] := by
  intro ext ch out r h
  simp only [buildUDPCommand] at h
  split at h
  · exact absurd h (by simp)
  · rename_i hwArgs heq
    cases h
    simp [udpFront, heq, hwArgsOk, udpMuxrate_eq_spec, List.append_assoc]

/-- Witness for C7 at the explicit-override channel. -/
theorem C7_muxrate_witness :
    (FFCmd.mk ffmpegPath
      ["-re", "-i", "udp://in", "-map", "0:v:0", "-map", "0:a:0", "-c:v", "copy", "-c:a",
       "copy", "-f", "mpegts", "-muxrate", "7000000", "-pcr_period", "20", "-pat_period",
       "0.1", "-streamid", "0:0x100", "-streamid", "1:0x101", "-mpegts_flags",
       "resend_headers", "-flush_packets", "1", "-bufsize", "65536",
       "udp://10.0.0.1:5000"]).args =
      udpFront {} { input_url := "udp://in", ffmpeg_params := some { muxrate := some "7000000" } }
          c1out
        ++ ["-f", "mpegts", "-muxrate",
            muxrateSpec (some { muxrate := some "7000000" })]
        ++ udpFixedTail ++ [udpUrlOf c1out] :=
  C7_muxrate {} { input_url := "udp://in", ffmpeg_params := some { muxrate := some "7000000" } }
    c1out _ rfl


/-- A string containing `_nvenc` is nonempty. -/
theorem nvenc_ne_empty (vc : String) (hnv : strIncludes vc "_nvenc" = true) : vc ≠ "" := by
  intro he
  rw [he] at hnv
  exact absurd hnv (by decide)

/-- For an NVENC codec, a preset found in the fixed table maps to its table
value. -/
theorem mapPreset_table (vc p m : String) (hnv : strIncludes vc "_nvenc" = true)
    (hp : p ≠ "") (ht : nvencPresetTable (lowerStr p) = some m) :
    mapPresetForHardwareCodec p vc = some m := by
  have hvne := nvenc_ne_empty vc hnv
  simp [mapPresetForHardwareCodec, hp, hvne, hnv, ht]

/-- For an NVENC codec, a `p1`..`p7` preset maps to its lower-cased self. -/
theorem mapPreset_pnum (vc p : String) (hnv : strIncludes vc "_nvenc" = true)
    (hp : p ≠ "") (ht : nvencPresetTable (lowerStr p) = none) (hn : isPNum p = true) :
    mapPresetForHardwareCodec p vc = some (lowerStr p) := by
  have hvne := nvenc_ne_empty vc hnv
  simp [mapPresetForHardwareCodec, hp, hvne, hnv, ht, hn]

theorem truthyS_some (s : String) : truthyS (some s) = decide (s ≠ "") := rfl

/-- Without an environment override, the emitted preset is the mapped
preset. -/
theorem presetArgs_mapped (vc p m : String) (envN : Option String)
    (hnv : strIncludes vc "_nvenc" = true) (he : truthyS envN = false) (hp : p ≠ "")
    (hm : mapPresetForHardwareCodec p vc = some m) :
    presetArgs (some p) (some vc) envN = ["-preset", m] := by
  have hvne := nvenc_ne_empty vc hnv
  simp [presetArgs, truthyS_some, hp, hvne, hnv, he, hm, getS]

/-- C8: for every NVENC codec and declared preset, a set (truthy)
`NVENC_PRESET` environment variable is emitted verbatim after `-preset`;
otherwise the libx264 presets map through the fixed table
(ultrafast,superfast↦p1; veryfast↦p2; faster,fast↦p3; medium↦p4; slow↦p5;
slower↦p6; veryslow↦p7) and presets already of the form `p1`..`p7` are
emitted unchanged. -/
theorem C8_nvenc_preset_mapping :
    ∀ vc : String, strIncludes vc "_nvenc" = true →
      (∀ v p : String, v ≠ "" → p ≠ "" →
        presetArgs (some p) (some vc) (some v) = ["-preset", v])
      ∧ (∀ envN : Option String, truthyS envN = false →
          presetArgs (some "ultrafast") (some vc) envN = ["-preset", "p1"]
          ∧ presetArgs (some "superfast") (some vc) envN = ["-preset", "p1"]
          ∧ presetArgs (some "veryfast") (some vc) envN = ["-preset", "p2"]
          ∧ presetArgs (some "faster") (some vc) envN = ["-preset", "p3"]
          ∧ presetArgs (some "fast") (some vc) envN = ["-preset", "p3"]
          ∧ presetArgs (some "medium") (some vc) envN = ["-preset", "p4"]
          ∧ presetArgs (some "slow") (some vc) envN = ["-preset", "p5"]
          ∧ presetArgs (some "slower") (some vc) envN = ["-preset", "p6"]
          ∧ presetArgs (some "veryslow") (some vc) envN = ["-preset", "p7"]
          ∧ presetArgs (some "p1") (some vc) envN = ["-preset", "p1"]
          ∧ presetArgs (some "p2") (some vc) envN = ["-preset", "p2"]
          ∧ presetArgs (some "p3") (some vc) envN = ["-preset", "p3"]
          ∧ presetArgs (some "p4") (some vc) envN = ["-preset", "p4"]
          ∧ presetArgs (some "p5") (some vc) envN = ["-preset", "p5"]
          ∧ presetArgs (some "p6") (some vc) envN = ["-preset", "p6"]
          ∧ presetArgs (some "p7") (some vc) envN = ["-preset", "p7"]) := by
  intro vc hnv
  have hvne := nvenc_ne_empty vc hnv
  constructor
  · intro v p hv hp
    simp [presetArgs, truthyS_some, hp, hvne, hnv, hv, getS]
  · intro envN he
    refine ⟨?_, ?_, ?_, ?_, ?_, ?_, ?_, ?_, ?_, ?_, ?_, ?_, ?_, ?_, ?_, ?_⟩
    · exact presetArgs_mapped vc "ultrafast" "p1" envN hnv he (by decide)
        (mapPreset_table vc "ultrafast" "p1" hnv (by decide) (by decide))
    · exact presetArgs_mapped vc "superfast" "p1" envN hnv he (by decide)
        (mapPreset_table vc "superfast" "p1" hnv (by decide) (by decide))
    · exact presetArgs_mapped vc "veryfast" "p2" envN hnv he (by decide)
        (mapPreset_table vc "veryfast" "p2" hnv (by decide) (by decide))
    · exact presetArgs_mapped vc "faster" "p3" envN hnv he (by decide)
        (mapPreset_table vc "faster" "p3" hnv (by decide) (by decide))
    · exact presetArgs_mapped vc "fast" "p3" envN hnv he (by decide)
        (mapPreset_table vc "fast" "p3" hnv (by decide) (by decide))
    · exact presetArgs_mapped vc "medium" "p4" envN hnv he (by decide)
        (mapPreset_table vc "medium" "p4" hnv (by decide) (by decide))
    · exact presetArgs_mapped vc "slow" "p5" envN hnv he (by decide)
        (mapPreset_table vc "slow" "p5" hnv (by decide) (by decide))
    · exact presetArgs_mapped vc "slower" "p6" envN hnv he (by decide)
        (mapPreset_table vc "slower" "p6" hnv (by decide) (by decide))
    · exact presetArgs_mapped vc "veryslow" "p7" envN hnv he (by decide)
        (mapPreset_table vc "veryslow" "p7" hnv (by decide) (by decide))
    · exact presetArgs_mapped vc "p1" "p1" envN hnv he (by decide)
        (mapPreset_pnum vc "p1" hnv (by decide) (by decide) (by decide))
    · exact presetArgs_mapped vc "p2" "p2" envN hnv he (by decide)
        (mapPreset_pnum vc "p2" hnv (by decide) (by decide) (by decide))
    · exact presetArgs_mapped vc "p3" "p3" envN hnv he (by decide)
        (mapPreset_pnum vc "p3" hnv (by decide) (by decide) (by decide))
    · exact presetArgs_mapped vc "p4" "p4" envN hnv he (by decide)
        (mapPreset_pnum vc "p4" hnv (by decide) (by decide) (by decide))
    · exact presetArgs_mapped vc "p5" "p5" envN hnv he (by decide)
        (mapPreset_pnum vc "p5" hnv (by decide) (by decide) (by decide))
    · exact presetArgs_mapped vc "p6" "p6" envN hnv he (by decide)
        (mapPreset_pnum vc "p6" hnv (by decide) (by decide) (by decide))
    · exact presetArgs_mapped vc "p7" "p7" envN hnv he (by decide)
        (mapPreset_pnum vc "p7" hnv (by decide) (by decide) (by decide))

/-- Witness for C8: concrete NVENC codec, override and table entries. -/
theorem C8_nvenc_preset_mapping_witness :
    presetArgs (some "veryfast") (some "h264_nvenc") (some "p6") = ["-preset", "p6"]
    ∧ presetArgs (some "veryfast") (some "h264_nvenc") none = ["-preset", "p2"]
    ∧ presetArgs (some "p3") (some "h264_nvenc") none = ["-preset", "p3"] := by
  have h := C8_nvenc_preset_mapping "h264_nvenc" (by decide)
  exact ⟨h.1 "p6" "veryfast" (by decide) (by decide), (h.2 none (by decide)).2.2.1,
    (h.2 none (by decide)).2.2.2.2.2.2.2.2.2.2.2.1⟩
